import Mathlib

/-!
Verification of the `disk` file-persistence layer.

This file gives a shallow embedding of the core of the repository: the
25-byte header/version framing protocol (src/header.rs, src/bincode2.rs),
the byte-range readers `file_bytes` / `file_bytes_memmap`, the gzip
save/read pair, the atomic save/remove engine and its temp-file cleanup
(src/common.rs), together with proofs about the specification claims.

Modelling conventions:
- machine bytes are `Nat` values, file contents are `List Nat`;
- the filesystem is a partial map from absolute path strings to contents;
- fallible Rust functions returning `Result<T, anyhow::Error>` become
  `Except` values over small error enums, one constructor per `bail!` or
  `?` site that matters to a claim;
- external collaborators (the bincode codec, the flate2 gzip codec) are
  parameters of the embedded functions;
- I/O failures that depend on the outside world (write errors, rename
  errors, remove errors) are injected through explicit boolean oracles,
  mirroring the spec idea of simulating a crash or fault at each step.
-/

namespace Disk

/-- A filesystem: a partial map from absolute paths to file contents. -/
def Fs : Type := String → Option (List Nat)

/-- The empty filesystem. -/
def fsEmpty : Fs := fun _ => none

/-- Write (create or truncate-and-overwrite) a file at path `p`. -/
def fsSet (fs : Fs) (p : String) (v : List Nat) : Fs :=
  fun q => if q = p then some v else fs q

/-- Delete the file at path `p` (effect of a successful `remove_file`). -/
def fsRemove (fs : Fs) (p : String) : Fs :=
  fun q => if q = p then none else fs q

theorem fsSet_same (fs : Fs) (p : String) (v : List Nat) : fsSet fs p v p = some v := by
  simp [fsSet]

theorem fsSet_other (fs : Fs) (p q : String) (v : List Nat) (h : q ≠ p) :
    fsSet fs p v q = fs q := by
  simp [fsSet, h]

theorem fsRemove_same (fs : Fs) (p : String) : fsRemove fs p p = none := by
  simp [fsRemove]

theorem fsRemove_other (fs : Fs) (p q : String) (h : q ≠ p) : fsRemove fs p q = fs q := by
  simp [fsRemove, h]

/-- Metadata (src/metadata.rs): the byte count and path returned by every
successful disk operation. -/
structure Metadata where
  size : Nat
  path : String
deriving DecidableEq, Repr

/-- `Metadata::new`. -/
def Metadata.mk_new (size : Nat) (path : String) : Metadata := ⟨size, path⟩

/-- `Metadata::zero`: a zero-size record for a path. -/
def Metadata.zero (path : String) : Metadata := ⟨0, path⟩

/-- The file identity of a persistable type: the resolved base directory
plus the canonical `FILE_NAME`.  The gzip/tmp sibling names are derived
exactly as the `const_format!` calls in `impl_macro` derive
`FILE_NAME_GZIP`, `FILE_NAME_TMP` and `FILE_NAME_GZIP_TMP`. -/
structure Entity where
  basePath : String
  fileName : String
deriving DecidableEq, Repr

/-- Absolute path of the canonical file (`base_path` + `FILE_NAME`). -/
def Entity.filePath (e : Entity) : String := e.basePath ++ "/" ++ e.fileName

/-- Absolute path of the temp file (`FILE_NAME_TMP` = `{file}.{ext}.tmp`). -/
def Entity.tmpPath (e : Entity) : String := e.basePath ++ "/" ++ (e.fileName ++ ".tmp")

/-- Absolute path of the gzip file (`FILE_NAME_GZIP` = `{file}.{ext}.gz`). -/
def Entity.gzipPath (e : Entity) : String := e.basePath ++ "/" ++ (e.fileName ++ ".gz")

/-- Absolute path of the gzip temp file (`FILE_NAME_GZIP_TMP` = `{file}.{ext}.gz.tmp`). -/
def Entity.gzipTmpPath (e : Entity) : String := e.basePath ++ "/" ++ (e.fileName ++ ".gz.tmp")

/-- A concrete entity used to instantiate theorems on concrete runs. -/
def entW : Entity := ⟨"/base", "f.bin"⟩

theorem length_tmp_ext : (".tmp" : String).length = 4 := rfl

theorem length_gz_ext : (".gz" : String).length = 3 := rfl

theorem length_gz_tmp_ext : (".gz.tmp" : String).length = 7 := rfl

theorem tmpPath_ne_filePath (e : Entity) : e.tmpPath ≠ e.filePath := by
  intro h
  have hl := congrArg String.length h
  simp only [Entity.tmpPath, Entity.filePath, String.length_append, length_tmp_ext] at hl
  omega

theorem gzipTmpPath_ne_tmpPath (e : Entity) : e.gzipTmpPath ≠ e.tmpPath := by
  intro h
  have hl := congrArg String.length h
  simp only [Entity.gzipTmpPath, Entity.tmpPath, String.length_append, length_gz_tmp_ext,
    length_tmp_ext] at hl
  omega

theorem gzipPath_ne_filePath (e : Entity) : e.gzipPath ≠ e.filePath := by
  intro h
  have hl := congrArg String.length h
  simp only [Entity.gzipPath, Entity.filePath, String.length_append, length_gz_ext] at hl
  omega

/-! ### Header/version framing (src/header.rs `ensure_header!`, src/bincode2.rs `from_bytes`) -/

/-- Errors of the framing checks and the subsequent decode. -/
inductive FrameErr where
  | tooShort
  | headerMismatch
  | versionMismatch
  | decodeFail
deriving DecidableEq, Repr

/-- The header checks at the top of `Bincode2::from_bytes` (identical to the
`ensure_header!` macro): length below 25, then the 24 header bytes, then
the version byte, in that order. -/
def ensure_header (hdr : List Nat) (ver : Nat) (bytes : List Nat) : Except FrameErr Unit :=
  if bytes.length < 25 then .error .tooShort
  else if bytes.take 24 ≠ hdr then .error .headerMismatch
  else if bytes.getD 24 0 ≠ ver then .error .versionMismatch
  else .ok ()

/-- `Bincode2::from_bytes`: validate the frame, then decode the payload after
the 25-byte prefix with the external bincode decoder `decode`. -/
def from_bytes {α : Type} (hdr : List Nat) (ver : Nat) (decode : List Nat → Option α)
    (bytes : List Nat) : Except FrameErr α :=
  match ensure_header hdr ver bytes with
  | .error e => .error e
  | .ok () =>
    match decode (bytes.drop 25) with
    | some a => .ok a
    | none => .error .decodeFail

/-- C2: header validation fails with the too-short error exactly when the
buffer has fewer than 25 bytes; otherwise with the header-mismatch error
exactly when the first 24 bytes differ from the header constant; otherwise
with the version-mismatch error exactly when byte 24 differs from the
version constant; otherwise it succeeds.  Length is checked before content
(each later outcome entails that all earlier checks passed), and
`from_bytes` propagates exactly these validation errors. -/
theorem ensure_header_cases {α : Type} (hdr : List Nat) (ver : Nat) (b : List Nat) :
    (ensure_header hdr ver b = .error .tooShort ↔ b.length < 25) ∧
    (ensure_header hdr ver b = .error .headerMismatch ↔ ¬ b.length < 25 ∧ b.take 24 ≠ hdr) ∧
    (ensure_header hdr ver b = .error .versionMismatch ↔
      ¬ b.length < 25 ∧ b.take 24 = hdr ∧ b.getD 24 0 ≠ ver) ∧
    (ensure_header hdr ver b = .ok () ↔ ¬ b.length < 25 ∧ b.take 24 = hdr ∧ b.getD 24 0 = ver) ∧
    (∀ (decode : List Nat → Option α) e, ensure_header hdr ver b = .error e →
      from_bytes hdr ver decode b = .error e) := by
  refine ⟨?_, ?_, ?_, ?_, ?_⟩
  · unfold ensure_header
    by_cases h1 : b.length < 25 <;> by_cases h2 : b.take 24 = hdr <;>
      by_cases h3 : b[24]?.getD 0 = ver <;> simp [h1, h2, h3]
  · unfold ensure_header
    by_cases h1 : b.length < 25 <;> by_cases h2 : b.take 24 = hdr <;>
      by_cases h3 : b[24]?.getD 0 = ver <;> simp [h1, h2, h3]
  · unfold ensure_header
    by_cases h1 : b.length < 25 <;> by_cases h2 : b.take 24 = hdr <;>
      by_cases h3 : b[24]?.getD 0 = ver <;> simp [h1, h2, h3]
  · unfold ensure_header
    by_cases h1 : b.length < 25 <;> by_cases h2 : b.take 24 = hdr <;>
      by_cases h3 : b[24]?.getD 0 = ver <;> simp [h1, h2, h3]
  · intro decode e he
    unfold from_bytes
    rw [he]

/-- Concrete run of C2: a well-framed 26-byte buffer passes validation, a
2-byte buffer fails as too short, and `from_bytes` propagates that
error. -/
theorem ensure_header_cases_wit :
    ensure_header (List.replicate 24 1) 5 (List.replicate 24 1 ++ [5, 0]) = .ok () ∧
    ensure_header (List.replicate 24 1) 5 [1, 2] = .error .tooShort ∧
    from_bytes (List.replicate 24 1) 5 (fun payload => some payload.length) [1, 2] =
      .error .tooShort :=
  ⟨(ensure_header_cases (α := Nat) (List.replicate 24 1) 5
      (List.replicate 24 1 ++ [5, 0])).2.2.2.1.mpr (by decide),
   (ensure_header_cases (α := Nat) (List.replicate 24 1) 5 [1, 2]).1.mpr (by decide),
   (ensure_header_cases (List.replicate 24 1) 5 [1, 2]).2.2.2.2
     (fun payload => some payload.length) .tooShort rfl⟩

/-! ### Version-directed construction (src/header.rs `file_version`, `from_versions`) -/

/-- Errors of the version-resolution pipeline, parameterized by the error
type `ε` of the caller-supplied constructors. -/
inductive VerErr (ε : Type) where
  | ioFail
  | headerFail
  | noVersionMatched
  | ctorFail (e : ε)
deriving DecidableEq, Repr

/-- `file_version`: open the associated file (`content = none` models a
failed open), `read_exact` 25 bytes (failing when the file is shorter),
and return byte 24 when bytes 0..24 match the header. -/
def file_version (ε : Type) (hdr : List Nat) (content : Option (List Nat)) :
    Except (VerErr ε) Nat :=
  match content with
  | none => .error .ioFail
  | some b =>
    if b.length < 25 then .error .ioFail
    else if b.take 24 = hdr then .ok (b.getD 24 0)
    else .error .headerFail

/-- The loop body of `from_versions`: scan the `(version, constructor)`
entries in list order, skip non-matching tags, and on the first matching
tag return the result of invoking that constructor (each constructor is
modelled by the `Except` value its invocation produces). -/
def scan_versions {ε α : Type} (v : Nat) : List (Nat × Except ε α) → Except (VerErr ε) (Nat × α)
  | [] => .error .noVersionMatched
  | (ver, ctor) :: rest =>
    if v ≠ ver then scan_versions v rest
    else
      match ctor with
      | .ok a => .ok (ver, a)
      | .error e => .error (.ctorFail e)

/-- `from_versions`: read the on-disk version via `file_version`, then scan
the supplied entries. -/
def from_versions {ε α : Type} (hdr : List Nat) (content : Option (List Nat))
    (l : List (Nat × Except ε α)) : Except (VerErr ε) (Nat × α) :=
  match file_version ε hdr content with
  | .error e => .error e
  | .ok v => scan_versions v l

theorem scan_versions_eq_find {ε α : Type} (v : Nat) (l : List (Nat × Except ε α)) :
    scan_versions v l =
      match l.find? (fun p => p.1 == v) with
      | none => .error .noVersionMatched
      | some (ver, .ok a) => .ok (ver, a)
      | some (ver, .error e) => .error (.ctorFail e) := by
  induction l with
  | nil => rfl
  | cons hd tl ih =>
    obtain ⟨ver, ctor⟩ := hd
    by_cases hv : v = ver
    · subst hv
      simp only [scan_versions, ne_eq, not_true_eq_false, if_false, List.find?_cons,
        beq_self_eq_true, if_true]
      cases ctor <;> rfl
    · have hb : (ver == v) = false := by
        simp [beq_eq_false_iff_ne]
        omega
      simp only [scan_versions, ne_eq, hv, not_false_eq_true, if_true, List.find?_cons, hb]
      exact ih

/-- C3: for every constructor list and every on-disk version `v` readable by
`file_version`, `from_versions` is decided by the first entry in list order
whose tag equals `v`: it returns that entry's version paired with its
constructor's value, propagates that constructor's error without trying
later entries, and fails with the no-version-matched error when no tag
equals `v`.  In particular `[(v+1, ctorA), (v, ctorB), (v, ctorC)]` always
answers with `ctorB`, never `ctorC`. -/
theorem from_versions_first_match {ε α : Type} (hdr : List Nat) (content : Option (List Nat))
    (v : Nat) (l : List (Nat × Except ε α)) (h : file_version ε hdr content = .ok v) :
    (from_versions hdr content l =
      match l.find? (fun p => p.1 == v) with
      | none => .error .noVersionMatched
      | some (ver, .ok a) => .ok (ver, a)
      | some (ver, .error e) => .error (.ctorFail e)) ∧
    (∀ a b c : α, from_versions (ε := ε) hdr content [(v + 1, .ok a), (v, .ok b), (v, .ok c)] =
      .ok (v, b)) := by
  constructor
  · unfold from_versions
    rw [h]
    exact scan_versions_eq_find v l
  · intro a b c
    unfold from_versions
    rw [h]
    have hne : v ≠ v + 1 := by omega
    simp [scan_versions, hne]

/-- Concrete run of C3: header of 24 sevens, on-disk version byte 1, the
constructor list `[(2, ok 10), (1, ok 20), (1, ok 30)]`; resolution picks
the middle entry (first tag-1 match), never the last. -/
theorem from_versions_first_match_wit :
    from_versions (ε := Unit) (List.replicate 24 7) (some (List.replicate 24 7 ++ [1]))
        [(2, .ok 10), (1, .ok 20), (1, .ok 30)] = .ok (1, 20) := by
  have h : file_version Unit (List.replicate 24 7) (some (List.replicate 24 7 ++ [1])) =
      .ok 1 := rfl
  have := (from_versions_first_match (List.replicate 24 7)
    (some (List.replicate 24 7 ++ [1])) 1 [(2, .ok 10), (1, .ok 20), (1, .ok 30)] h).2 10 20 30
  simpa using this

/-! ### Ranged byte reads (src/common.rs `impl_file_bytes`) -/

/-- Errors of the ranged readers. -/
inductive ByteErr where
  | rangeFail
  | eofFail
  | lenFail
deriving DecidableEq, Repr

/-- `file_bytes`: reject `start > end`; allocate a buffer of `end - start`
bytes, or 1 byte when `start == end`; seek to `start` and `read_exact`
into the buffer, failing when the file (here `content`) has fewer than
`start + len` bytes. -/
def file_bytes (content : List Nat) (s e : Nat) : Except ByteErr (List Nat) :=
  if s > e then .error .rangeFail
  else
    let len := if s = e then 1 else e - s
    if s + len ≤ content.length then .ok ((content.drop s).take len)
    else .error .eofFail

/-- `file_bytes_memmap`: reject `start > end`; map the file and reject when
the mapped length is below `end`; return the `[start, end)` slice of the
mapping. -/
def file_bytes_memmap (content : List Nat) (s e : Nat) : Except ByteErr (List Nat) :=
  if s > e then .error .rangeFail
  else if content.length < e then .error .lenFail
  else .ok ((content.drop s).take (e - s))

/-- C8: `file_bytes` fails with the invalid-range error exactly when
`start > end`; when `start = end` (and the file reaches past that offset)
it returns the 1-byte buffer holding the byte at `start` — the documented
quirk; otherwise it returns the `end - start` bytes at offsets
`[start, end)`. -/
theorem file_bytes_range_cases (content : List Nat) (s e : Nat) :
    (file_bytes content s e = .error .rangeFail ↔ s > e) ∧
    (s = e → s < content.length → file_bytes content s e = .ok [content.getD s 0]) ∧
    (s < e → e ≤ content.length → file_bytes content s e = .ok ((content.drop s).take (e - s))) := by
  refine ⟨?_, ?_, ?_⟩
  · unfold file_bytes
    by_cases h : s > e
    · simp [h]
    · simp only [h, if_false]
      constructor
      · intro hc
        exfalso
        split at hc <;> split at hc <;> simp at hc
      · intro hc
        exact hc.elim
  · intro hse hlt
    subst hse
    unfold file_bytes
    have h1 : ¬ s > s := by omega
    have h2 : s + 1 ≤ content.length := by omega
    simp only [h1, if_false, if_pos rfl, h2, if_true]
    rw [List.take_one_drop_eq_of_lt_length hlt]
    simp [List.getD_eq_getElem?_getD, List.getElem?_eq_getElem hlt]
  · intro hlt hle
    unfold file_bytes
    have h1 : ¬ s > e := by omega
    have h2 : ¬ s = e := by omega
    have h3 : s + (e - s) ≤ content.length := by omega
    simp [h1, h2, h3]

/-- Concrete run of C8: on a 6-byte file, `file_bytes 5 5` is a 1-byte
buffer, `file_bytes 10 5` is the invalid-range error, and `file_bytes 1 3`
is the two bytes at offsets 1 and 2. -/
theorem file_bytes_range_cases_wit :
    file_bytes [3, 4, 5, 6, 7, 8] 5 5 = .ok [8] ∧
    file_bytes [3, 4, 5, 6, 7, 8] 10 5 = .error .rangeFail ∧
    file_bytes [3, 4, 5, 6, 7, 8] 1 3 = .ok [4, 5] :=
  ⟨(file_bytes_range_cases [3, 4, 5, 6, 7, 8] 5 5).2.1 rfl (by decide),
   (file_bytes_range_cases [3, 4, 5, 6, 7, 8] 10 5).1.mpr (by decide),
   (file_bytes_range_cases [3, 4, 5, 6, 7, 8] 1 3).2.2 (by decide) (by decide)⟩

/-- C9 counterexample: on the one-byte file `[7]` with `start = end = 0`,
`file_bytes` succeeds with the 1-byte buffer `[7]` while
`file_bytes_memmap` succeeds with the empty buffer — the two functions do
not perform the same logical operation. -/
theorem file_bytes_memmap_counterexample :
    file_bytes [7] 0 0 = .ok [7] ∧ file_bytes_memmap [7] 0 0 = .ok [] ∧
    file_bytes [7] 0 0 ≠ file_bytes_memmap [7] 0 0 := by
  refine ⟨rfl, rfl, ?_⟩
  intro hcon
  have h1 : file_bytes [7] 0 0 = .ok [7] := rfl
  have h2 : file_bytes_memmap [7] 0 0 = .ok [] := rfl
  rw [h1, h2] at hcon
  simp at hcon

/-- C9 amended: away from the `start = end` quirk the two readers agree —
for `start ≠ end` they succeed in exactly the same cases and return the
same buffer (`Except.toOption` equates success values and collapses the
differing error messages).  At `start = end`, `file_bytes` returns a
1-byte buffer while `file_bytes_memmap` returns an empty one. -/
theorem file_bytes_memmap_agrees (content : List Nat) (s e : Nat) (h : s ≠ e) :
    (file_bytes content s e).toOption = (file_bytes_memmap content s e).toOption := by
  unfold file_bytes file_bytes_memmap
  by_cases h1 : s > e
  · simp [h1]
  · have hlt : s < e := by omega
    by_cases h2 : content.length < e
    · have h3 : ¬ s + (e - s) ≤ content.length := by omega
      simp [h1, h, h2, h3, Except.toOption]
    · have h3 : s + (e - s) ≤ content.length := by omega
      simp [h1, h, h2, h3, Except.toOption]

/-- Concrete run of the amended C9: on a 3-byte file with range `[0, 2)`
both readers return the same two bytes. -/
theorem file_bytes_memmap_agrees_wit :
    (0 : Nat) ≠ 2 ∧
    (file_bytes [1, 2, 3] 0 2).toOption = (file_bytes_memmap [1, 2, 3] 0 2).toOption :=
  ⟨by decide, file_bytes_memmap_agrees [1, 2, 3] 0 2 (by decide)⟩

/-! ### The atomic save engine (src/common.rs `save_atomic`) -/

/-- Errors of `save_atomic`, one per `bail!` / `?` site: the
`to_writeable_fmt()?` serialization, the `write_all` to the temp file, the
`rename`, and the cleanup `remove_file(&tmp)?`. -/
inductive SaveErr where
  | serializeFail
  | writeFail
  | renameFail
  | removeTmpFail
deriving DecidableEq, Repr

/-- Failure injection for one `save_atomic` run: the serialization outcome
(`none` models `to_writeable_fmt` failing), whether the temp-file write
succeeds, the bytes a failed write leaves behind in the temp file, and
whether the rename and the cleanup `remove_file` succeed. -/
structure SaveOracle where
  serialized : Option (List Nat)
  writeOk : Bool
  writeLeftover : List Nat
  renameOk : Bool
  removeTmpOk : Bool
deriving Repr

/-- `save_atomic`: serialize, create the base directories, write the buffer
to the temp path (`file_bufw!` truncates/creates), then rename the temp
path onto the final path.  On a write failure the temp file is removed and
the write error re-raised; on a rename failure the temp file is removed
and the rename error re-raised; in both cases a failing removal takes
precedence (the `?` on `remove_file`).  The rename itself is atomic: it
either moves the complete temp file onto the final path or leaves the
filesystem untouched.  Returns the filesystem after the run and the
result. -/
def save_atomic (ent : Entity) (o : SaveOracle) (fs : Fs) : Fs × Except SaveErr Metadata :=
  match o.serialized with
  | none => (fs, .error .serializeFail)
  | some bytes =>
    if o.writeOk then
      let fs1 := fsSet fs ent.tmpPath bytes
      if o.renameOk then
        (fsSet (fsRemove fs1 ent.tmpPath) ent.filePath bytes,
         .ok (Metadata.mk_new bytes.length ent.filePath))
      else if o.removeTmpOk then
        (fsRemove fs1 ent.tmpPath, .error .renameFail)
      else
        (fs1, .error .removeTmpFail)
    else
      let fs1 := fsSet fs ent.tmpPath o.writeLeftover
      if o.removeTmpOk then
        (fsRemove fs1 ent.tmpPath, .error .writeFail)
      else
        (fs1, .error .removeTmpFail)

/-- C1: for every starting filesystem and every injected failure
(serialization, temp-file write — possibly leaving partial bytes in the
temp file — or rename, with or without a failing cleanup), whenever
`save_atomic` returns an error the final path is byte-identical to its
pre-operation content; and whenever it succeeds the final path holds
exactly the complete serialized buffer.  The final path therefore never
holds a partially-written file. -/
theorem save_atomic_atomicity (ent : Entity) (o : SaveOracle) (fs : Fs) :
    (∀ err, (save_atomic ent o fs).2 = .error err →
      (save_atomic ent o fs).1 ent.filePath = fs ent.filePath) ∧
    (∀ m, (save_atomic ent o fs).2 = .ok m →
      ∃ bytes, o.serialized = some bytes ∧
        (save_atomic ent o fs).1 ent.filePath = some bytes ∧
        m = Metadata.mk_new bytes.length ent.filePath) := by
  have hne : ent.filePath ≠ ent.tmpPath := fun h => tmpPath_ne_filePath ent h.symm
  rcases hser : o.serialized with _ | bytes
  · have hval : save_atomic ent o fs = (fs, .error .serializeFail) := by
      simp [save_atomic, hser]
    rw [hval]
    exact ⟨fun err _ => rfl, fun m hm => by simp at hm⟩
  · by_cases hw : o.writeOk = true
    · by_cases hr : o.renameOk = true
      · have hval : save_atomic ent o fs =
            (fsSet (fsRemove (fsSet fs ent.tmpPath bytes) ent.tmpPath) ent.filePath bytes,
             .ok (Metadata.mk_new bytes.length ent.filePath)) := by
          simp [save_atomic, hser, hw, hr]
        rw [hval]
        refine ⟨fun err herr => ?_, fun m hm => ?_⟩
        · simp at herr
        · refine ⟨bytes, rfl, fsSet_same _ _ _, ?_⟩
          simpa using hm.symm
      · by_cases hc : o.removeTmpOk = true
        · have hval : save_atomic ent o fs =
              (fsRemove (fsSet fs ent.tmpPath bytes) ent.tmpPath, .error .renameFail) := by
            simp [save_atomic, hser, hw, hr, hc]
          rw [hval]
          refine ⟨fun err _ => ?_, fun m hm => by simp at hm⟩
          show fsRemove (fsSet fs ent.tmpPath bytes) ent.tmpPath ent.filePath = fs ent.filePath
          rw [fsRemove_other _ _ _ hne, fsSet_other _ _ _ _ hne]
        · have hval : save_atomic ent o fs =
              (fsSet fs ent.tmpPath bytes, .error .removeTmpFail) := by
            simp [save_atomic, hser, hw, hr, hc]
          rw [hval]
          refine ⟨fun err _ => ?_, fun m hm => by simp at hm⟩
          show fsSet fs ent.tmpPath bytes ent.filePath = fs ent.filePath
          rw [fsSet_other _ _ _ _ hne]
    · by_cases hc : o.removeTmpOk = true
      · have hval : save_atomic ent o fs =
            (fsRemove (fsSet fs ent.tmpPath o.writeLeftover) ent.tmpPath,
             .error .writeFail) := by
          simp [save_atomic, hser, hw, hc]
        rw [hval]
        refine ⟨fun err _ => ?_, fun m hm => by simp at hm⟩
        show fsRemove (fsSet fs ent.tmpPath o.writeLeftover) ent.tmpPath ent.filePath =
          fs ent.filePath
        rw [fsRemove_other _ _ _ hne, fsSet_other _ _ _ _ hne]
      · have hval : save_atomic ent o fs =
            (fsSet fs ent.tmpPath o.writeLeftover, .error .removeTmpFail) := by
          simp [save_atomic, hser, hw, hc]
        rw [hval]
        refine ⟨fun err _ => ?_, fun m hm => by simp at hm⟩
        show fsSet fs ent.tmpPath o.writeLeftover ent.filePath = fs ent.filePath
        rw [fsSet_other _ _ _ _ hne]

/-- Concrete run of C1: an injected rename failure leaves the (absent)
final path absent, and a fully successful run puts the complete
serialized buffer at the final path. -/
theorem save_atomic_atomicity_wit :
    (save_atomic entW ⟨some [1, 2], true, [], false, true⟩ fsEmpty).1 entW.filePath =
      fsEmpty entW.filePath ∧
    (∃ bytes, (⟨some [1, 2], true, [], true, true⟩ : SaveOracle).serialized = some bytes ∧
      (save_atomic entW ⟨some [1, 2], true, [], true, true⟩ fsEmpty).1 entW.filePath =
        some bytes ∧
      Metadata.mk_new 2 entW.filePath = Metadata.mk_new bytes.length entW.filePath) :=
  ⟨(save_atomic_atomicity entW ⟨some [1, 2], true, [], false, true⟩ fsEmpty).1 .renameFail rfl,
   (save_atomic_atomicity entW ⟨some [1, 2], true, [], true, true⟩ fsEmpty).2
     (Metadata.mk_new 2 entW.filePath) rfl⟩

/-- C4: in `save_atomic`, when the temp-file write or the rename fails and
the cleanup removal succeeds, the temp file is gone afterwards and the
original write/rename error is what propagates; when the cleanup removal
itself fails, the cleanup error propagates instead and the original error
is lost. -/
theorem save_atomic_cleanup (ent : Entity) (o : SaveOracle) (fs : Fs) (bytes : List Nat)
    (hser : o.serialized = some bytes) :
    (o.writeOk = false → o.removeTmpOk = true →
      (save_atomic ent o fs).2 = .error .writeFail ∧
      (save_atomic ent o fs).1 ent.tmpPath = none) ∧
    (o.writeOk = false → o.removeTmpOk = false →
      (save_atomic ent o fs).2 = .error .removeTmpFail) ∧
    (o.writeOk = true → o.renameOk = false → o.removeTmpOk = true →
      (save_atomic ent o fs).2 = .error .renameFail ∧
      (save_atomic ent o fs).1 ent.tmpPath = none) ∧
    (o.writeOk = true → o.renameOk = false → o.removeTmpOk = false →
      (save_atomic ent o fs).2 = .error .removeTmpFail) := by
  refine ⟨fun hw hc => ?_, fun hw hc => ?_, fun hw hr hc => ?_, fun hw hr hc => ?_⟩
  · have hval : save_atomic ent o fs =
        (fsRemove (fsSet fs ent.tmpPath o.writeLeftover) ent.tmpPath, .error .writeFail) := by
      simp [save_atomic, hser, hw, hc]
    rw [hval]
    exact ⟨rfl, fsRemove_same _ _⟩
  · have hval : save_atomic ent o fs =
        (fsSet fs ent.tmpPath o.writeLeftover, .error .removeTmpFail) := by
      simp [save_atomic, hser, hw, hc]
    rw [hval]
  · have hval : save_atomic ent o fs =
        (fsRemove (fsSet fs ent.tmpPath bytes) ent.tmpPath, .error .renameFail) := by
      simp [save_atomic, hser, hw, hr, hc]
    rw [hval]
    exact ⟨rfl, fsRemove_same _ _⟩
  · have hval : save_atomic ent o fs =
        (fsSet fs ent.tmpPath bytes, .error .removeTmpFail) := by
      simp [save_atomic, hser, hw, hr, hc]
    rw [hval]

/-- Concrete run of C4: a failed write with a successful cleanup propagates
the write error and leaves no temp file; a failed write with a failed
cleanup propagates the cleanup error. -/
theorem save_atomic_cleanup_wit :
    ((save_atomic entW ⟨some [1], false, [9], true, true⟩ fsEmpty).2 = .error .writeFail ∧
     (save_atomic entW ⟨some [1], false, [9], true, true⟩ fsEmpty).1 entW.tmpPath = none) ∧
    (save_atomic entW ⟨some [1], false, [9], true, false⟩ fsEmpty).2 = .error .removeTmpFail :=
  ⟨(save_atomic_cleanup entW ⟨some [1], false, [9], true, true⟩ fsEmpty [1] rfl).1 rfl rfl,
   (save_atomic_cleanup entW ⟨some [1], false, [9], true, false⟩ fsEmpty [1] rfl).2.1 rfl rfl⟩

/-! ### File removal (src/common.rs `rm`, `rm_atomic`, `rm_tmp`) -/

/-- Errors of the removal operations: a failing `rename` or a failing
`remove_file` (the latter covers both a missing file and an I/O fault). -/
inductive RmErr where
  | renameFail
  | removeFail
deriving DecidableEq, Repr

/-- `rm`: return `Metadata::zero(path)` when the final path does not exist;
otherwise record the file size and `remove_file` the path directly
(`removeOk` injects the outcome of that removal). -/
def rm (ent : Entity) (removeOk : Bool) (fs : Fs) : Fs × Except RmErr Metadata :=
  match fs ent.filePath with
  | none => (fs, .ok (Metadata.zero ent.filePath))
  | some content =>
    if removeOk then
      (fsRemove fs ent.filePath, .ok (Metadata.mk_new content.length ent.filePath))
    else
      (fs, .error .removeFail)

/-- `rm_atomic`: return `Metadata::zero(path)` when the final path does not
exist; otherwise record the size, rename the live file onto the temp path,
then `remove_file` the temp path (`renameOk` and `removeOk` inject the
outcomes of the two steps). -/
def rm_atomic (ent : Entity) (renameOk removeOk : Bool) (fs : Fs) : Fs × Except RmErr Metadata :=
  match fs ent.filePath with
  | none => (fs, .ok (Metadata.zero ent.filePath))
  | some content =>
    if renameOk then
      let fs1 := fsSet (fsRemove fs ent.filePath) ent.tmpPath content
      if removeOk then
        (fsRemove fs1 ent.tmpPath, .ok (Metadata.mk_new content.length ent.filePath))
      else
        (fs1, .error .removeFail)
    else
      (fs, .error .renameFail)

/-- C10: when the target file does not exist, `rm` and `rm_atomic` succeed
with a metadata record of size 0 carrying the final path, and the
filesystem is not modified — regardless of how the (never reached) removal
and rename steps would have gone. -/
theorem rm_absent (ent : Entity) (rOk aOk bOk : Bool) (fs : Fs)
    (h : fs ent.filePath = none) :
    rm ent rOk fs = (fs, .ok (Metadata.mk_new 0 ent.filePath)) ∧
    rm_atomic ent aOk bOk fs = (fs, .ok (Metadata.mk_new 0 ent.filePath)) := by
  constructor
  · unfold rm
    rw [h]
    rfl
  · unfold rm_atomic
    rw [h]
    rfl

/-- Concrete run of C10: both removals on the empty filesystem succeed with
a zero-size record and leave the filesystem empty. -/
theorem rm_absent_wit :
    rm entW true fsEmpty = (fsEmpty, .ok (Metadata.mk_new 0 entW.filePath)) ∧
    rm_atomic entW true true fsEmpty = (fsEmpty, .ok (Metadata.mk_new 0 entW.filePath)) :=
  rm_absent entW true true true fsEmpty rfl

/-- `rm_tmp`: if neither the temp file nor the gzip temp file exists,
succeed; otherwise `remove_file` the temp path and then the gzip temp
path, each `?` failing (with a not-found error) when that file is absent. -/
def rm_tmp (ent : Entity) (fs : Fs) : Fs × Except RmErr Unit :=
  if fs ent.tmpPath = none ∧ fs ent.gzipTmpPath = none then (fs, .ok ())
  else
    match fs ent.tmpPath with
    | none => (fs, .error .removeFail)
    | some _ =>
      let fs1 := fsRemove fs ent.tmpPath
      match fs1 ent.gzipTmpPath with
      | none => (fs1, .error .removeFail)
      | some _ => (fsRemove fs1 ent.gzipTmpPath, .ok ())

/-- C7 counterexample: starting from a filesystem holding only the gzip
temp file, `rm_tmp` fails (the `remove_file` of the absent plain temp file
errors before anything is deleted), and calling it twice in a row fails
both times — refuting both that two consecutive calls always succeed from
any state of the two temp files and that deletion failure of an existing
temp file is the only error case. -/
theorem rm_tmp_counterexample :
    (rm_tmp entW (fsSet fsEmpty entW.gzipTmpPath [0])).2 = .error .removeFail ∧
    (rm_tmp entW (rm_tmp entW (fsSet fsEmpty entW.gzipTmpPath [0])).1).2 =
      .error .removeFail := by
  constructor <;> rfl

/-- C7 amended: `rm_tmp` succeeds when both temp artifacts are absent
(trivially, touching nothing) and when both are present (deleting both);
but when exactly one of the two temp files exists the call returns an
error from removing the missing one — deleting the plain temp file first
if that was the one present, deleting nothing if only the gzip temp file
was present.  Hence a second call succeeds only in the first two cases or
after the only-plain-temp case. -/
theorem rm_tmp_cases (ent : Entity) (fs : Fs) :
    (fs ent.tmpPath = none → fs ent.gzipTmpPath = none → rm_tmp ent fs = (fs, .ok ())) ∧
    (∀ a b, fs ent.tmpPath = some a → fs ent.gzipTmpPath = some b →
      (rm_tmp ent fs).2 = .ok () ∧ (rm_tmp ent fs).1 ent.tmpPath = none ∧
      (rm_tmp ent fs).1 ent.gzipTmpPath = none) ∧
    (∀ a, fs ent.tmpPath = some a → fs ent.gzipTmpPath = none →
      (rm_tmp ent fs).2 = .error .removeFail ∧ (rm_tmp ent fs).1 ent.tmpPath = none) ∧
    (∀ b, fs ent.tmpPath = none → fs ent.gzipTmpPath = some b →
      rm_tmp ent fs = (fs, .error .removeFail)) := by
  have hne : ent.gzipTmpPath ≠ ent.tmpPath := gzipTmpPath_ne_tmpPath ent
  refine ⟨fun h1 h2 => ?_, fun a b h1 h2 => ?_, fun a h1 h2 => ?_, fun b h1 h2 => ?_⟩
  · unfold rm_tmp
    rw [if_pos ⟨h1, h2⟩]
  · have hg1 : fsRemove fs ent.tmpPath ent.gzipTmpPath = some b := by
      rw [fsRemove_other _ _ _ hne]
      exact h2
    have hval : rm_tmp ent fs =
        (fsRemove (fsRemove fs ent.tmpPath) ent.gzipTmpPath, .ok ()) := by
      unfold rm_tmp
      rw [if_neg (by simp [h1])]
      rw [h1]
      simp only [hg1]
    rw [hval]
    refine ⟨rfl, ?_, fsRemove_same _ _⟩
    show fsRemove (fsRemove fs ent.tmpPath) ent.gzipTmpPath ent.tmpPath = none
    rw [fsRemove_other _ _ _ (fun h => hne h.symm), fsRemove_same]
  · have hg1 : fsRemove fs ent.tmpPath ent.gzipTmpPath = none := by
      rw [fsRemove_other _ _ _ hne]
      exact h2
    have hval : rm_tmp ent fs = (fsRemove fs ent.tmpPath, .error .removeFail) := by
      unfold rm_tmp
      rw [if_neg (by simp [h1])]
      rw [h1]
      simp only [hg1]
    rw [hval]
    exact ⟨rfl, fsRemove_same _ _⟩
  · unfold rm_tmp
    rw [if_neg (by simp [h2])]
    rw [h1]

/-- Concrete run of the amended C7: with both temp artifacts present,
`rm_tmp` succeeds and removes both. -/
theorem rm_tmp_cases_wit :
    (rm_tmp entW (fsSet (fsSet fsEmpty entW.tmpPath [1]) entW.gzipTmpPath [2])).2 = .ok () ∧
    (rm_tmp entW (fsSet (fsSet fsEmpty entW.tmpPath [1]) entW.gzipTmpPath [2])).1
      entW.tmpPath = none ∧
    (rm_tmp entW (fsSet (fsSet fsEmpty entW.tmpPath [1]) entW.gzipTmpPath [2])).1
      entW.gzipTmpPath = none :=
  (rm_tmp_cases entW (fsSet (fsSet fsEmpty entW.tmpPath [1]) entW.gzipTmpPath [2])).2.1
    [1] [2] rfl rfl

/-! ### Existence checks (src/common.rs `exists`, `exists_gzip`) -/

/-- Error of the existence checks: the anyhow message raised when the path
does not exist. -/
inductive ExistsErr where
  | doesNotExist
deriving DecidableEq, Repr

/-- The `exists` method (named `exists_file` here, `exists` being reserved
in Lean): resolve the absolute path and match on `path.exists()`,
returning the size and path when it exists and an error when it does not.
`Path::exists` also reports `false` — hence the same error — when
existence cannot be determined. -/
def exists_file (ent : Entity) (fs : Fs) : Except ExistsErr Metadata :=
  match fs ent.filePath with
  | some content => .ok (Metadata.mk_new content.length ent.filePath)
  | none => .error .doesNotExist

/-- `exists_gzip`: the same check against the `.gz`-suffixed path. -/
def exists_gzip (ent : Entity) (fs : Fs) : Except ExistsErr Metadata :=
  match fs ent.gzipPath with
  | some content => .ok (Metadata.mk_new content.length ent.gzipPath)
  | none => .error .doesNotExist

/-- C6 counterexample: on the empty filesystem — the target path simply
absent — both `exists` and `exists_gzip` return an error, not a successful
false result; no outcome of these functions encodes a successful "absent"
answer. -/
theorem exists_absent_counterexample :
    exists_file entW fsEmpty = .error .doesNotExist ∧
    (exists_file entW fsEmpty).isOk = false ∧
    exists_gzip entW fsEmpty = .error .doesNotExist ∧
    (exists_gzip entW fsEmpty).isOk = false := by
  exact ⟨rfl, rfl, rfl, rfl⟩

/-- C6 amended: the existence checks succeed — with the file size and path
— exactly when the target path exists, and return the does-not-exist error
whenever it is absent; since `Path::exists` maps an undeterminable state
(e.g. permission denied) to `false`, such states produce the same error
rather than a distinct one. -/
theorem exists_file_iff (ent : Entity) (fs : Fs) :
    ((exists_file ent fs).isOk = true ↔ (fs ent.filePath).isSome = true) ∧
    (fs ent.filePath = none → exists_file ent fs = .error .doesNotExist) ∧
    (∀ c, fs ent.filePath = some c →
      exists_file ent fs = .ok (Metadata.mk_new c.length ent.filePath)) ∧
    ((exists_gzip ent fs).isOk = true ↔ (fs ent.gzipPath).isSome = true) ∧
    (fs ent.gzipPath = none → exists_gzip ent fs = .error .doesNotExist) ∧
    (∀ c, fs ent.gzipPath = some c →
      exists_gzip ent fs = .ok (Metadata.mk_new c.length ent.gzipPath)) := by
  refine ⟨?_, fun h => ?_, fun c h => ?_, ?_, fun h => ?_, fun c h => ?_⟩
  · unfold exists_file
    cases fs ent.filePath <;> simp [Except.isOk, Except.toBool]
  · unfold exists_file
    rw [h]
  · unfold exists_file
    rw [h]
  · unfold exists_gzip
    cases fs ent.gzipPath <;> simp [Except.isOk, Except.toBool]
  · unfold exists_gzip
    rw [h]
  · unfold exists_gzip
    rw [h]

/-- Concrete run of the amended C6: a present file yields its size and
path. -/
theorem exists_file_iff_wit :
    exists_file entW (fsSet fsEmpty entW.filePath [5, 6]) =
      .ok (Metadata.mk_new 2 entW.filePath) :=
  (exists_file_iff entW (fsSet fsEmpty entW.filePath [5, 6])).2.2.1 [5, 6] rfl

/-! ### Gzip save and read (src/common.rs `save_gzip`, `read_to_bytes_gzip`) -/

/-- Error cases of a gzip read: the file open failing, or the gzip decoder
rejecting the bytes. -/
inductive ReadErr where
  | openFail
  | gzipFail
deriving DecidableEq, Repr

/-- `save_gzip`: compress the serialized bytes with the external flate2
encoder `compress` and write the result to the gzip path
(`FILE_NAME_GZIP`), returning the compressed byte count and that path. -/
def save_gzip (ent : Entity) (compress : List Nat → List Nat) (bytes : List Nat) (fs : Fs) :
    Fs × Metadata :=
  let c := compress bytes
  (fsSet fs ent.gzipPath c, Metadata.mk_new c.length ent.gzipPath)

/-- `read_to_bytes_gzip` exactly as written in src/common.rs: it feeds the
reader produced by `file_bufr!` to the decompressor — and `file_bufr!`
opens `Self::absolute_path()`, the canonical non-gzip path.  (The separate
`file_bufr_gzip!` macro, which opens `absolute_path_gzip()`, is defined in
src/common.rs but never used.)  `decompress` abstracts the external flate2
decoder. -/
def read_to_bytes_gzip (ent : Entity)
    (decompress : List Nat → Except ReadErr (List Nat)) (fs : Fs) :
    Except ReadErr (List Nat) :=
  match fs ent.filePath with
  | none => .error .openFail
  | some b => decompress b

/-- Modelled from the spec: a stand-in for the external flate2 gzip
encoder, missing from src/ — the spec only requires that decompression
invert compression and that non-gzip bytes are rejected, so the stand-in
prefixes the two gzip magic bytes. -/
def gzip_compress (b : List Nat) : List Nat := 31 :: 139 :: b

/-- Modelled from the spec: the matching stand-in for the external flate2
gzip decoder; it strips the magic bytes and rejects anything else. -/
def gzip_decompress (b : List Nat) : Except ReadErr (List Nat) :=
  match b with
  | 31 :: 139 :: rest => .ok rest
  | _ => .error .gzipFail

/-- C5 (code bug): the round trip fails because `read_to_bytes_gzip` opens
the wrong file.  With the round-tripping gzip stand-in, saving the buffer
`[1, 2, 3]` with `save_gzip` on an empty filesystem puts the compressed
bytes at the `.gz` path, yet `read_to_bytes_gzip` — contrary to its own
doc comment, which says it looks for the `.gz`-suffixed file — opens the
canonical path, finds nothing, and fails; it can never see what
`save_gzip` wrote, since the two paths differ for every entity. -/
theorem read_to_bytes_gzip_wrong_path :
    (∀ b, gzip_decompress (gzip_compress b) = .ok b) ∧
    (save_gzip entW gzip_compress [1, 2, 3] fsEmpty).1 entW.gzipPath = some [31, 139, 1, 2, 3] ∧
    read_to_bytes_gzip entW gzip_decompress
      (save_gzip entW gzip_compress [1, 2, 3] fsEmpty).1 = .error .openFail ∧
    (∀ e : Entity, e.gzipPath ≠ e.filePath) := by
  refine ⟨fun b => rfl, ?_, ?_, gzipPath_ne_filePath⟩
  · show fsSet fsEmpty entW.gzipPath (gzip_compress [1, 2, 3]) entW.gzipPath =
      some [31, 139, 1, 2, 3]
    rw [fsSet_same]
    rfl
  · have h : (save_gzip entW gzip_compress [1, 2, 3] fsEmpty).1 entW.filePath = none := by
      have hne : entW.filePath ≠ entW.gzipPath := fun h => gzipPath_ne_filePath entW h.symm
      show fsSet fsEmpty entW.gzipPath (gzip_compress [1, 2, 3]) entW.filePath = none
      rw [fsSet_other _ _ _ _ hne]
      rfl
    unfold read_to_bytes_gzip
    rw [h]

end Disk
